import Mathlib

/-!
Shallow embedding of the HRM MCP server's hierarchical reasoning core
(`src/convergence.py`, `src/reasoning_engine.py`, `src/hrm_mcp_server.py`,
`src/state_manager.py`, `src/models.py`).

Conventions of the embedding:
* Python floats are modelled as rationals (the spec describes them as reals;
  all constants involved are decimal literals, so exact arithmetic applies).
* Python lists are Lean lists; dictionaries used as keyed tables are
  association lists keyed by strings.
* Fields of type Dict[str, Any] that no verified operation reads
  (problem_representation, global_context, current_task) are omitted from the
  state records; opaque payloads are modelled as strings.
* Fallible code paths (a raised exception, an unbound local) are modelled with
  Except / Option.
-/

namespace HRM

/-- Python float literals are embedded as exact rationals. -/
abbrev Q := ℚ

/-- Model of Python str.lower (ASCII case folding, which is all the source
uses): lower-cases every character. -/
def pyLower (s : String) : String := ⟨s.data.map Char.toLower⟩

/-- Model of the Python substring test `needle in haystack`. -/
def containsSub (haystack needle : String) : Bool :=
  decide (List.IsInfix needle.toList haystack.toList)

/-- Model of Python str.strip(): removes leading and trailing whitespace. -/
def pyStrip (s : String) : String :=
  ⟨((s.data.dropWhile Char.isWhitespace).reverse.dropWhile Char.isWhitespace).reverse⟩

/-- Model of Python's built-in `abs` on a rational. -/
def pyAbs (x : Q) : Q := if x < 0 then -x else x

/-- Model of the Python slice `l[-w:]` (on a nonnegative `w`): for `w = 0` the
slice index is `-0 = 0`, so Python returns the WHOLE list, not the last zero
elements; for `w ≥ 1` it returns the last `min w l.length` elements. -/
def pySliceLast (w : ℕ) (l : List Q) : List Q :=
  if w = 0 then l else l.drop (l.length - w)

/-- `ConvergenceDetector.check_local_convergence` (src/convergence.py:7-24).
The division `sum recent / len recent` is by zero only when `recent = []`,
which in Python raises ZeroDivisionError; in the embedding `ℚ` division by
zero yields `0` (that point is reachable only with `stability_window = 0`
and an empty history, and no theorem below relies on it). -/
def check_local_convergence (results_history : List Q) (threshold : Q)
    (min_iterations stability_window : ℕ) : Bool :=
  if results_history.length < min_iterations then false
  else
    let recent := pySliceLast stability_window results_history
    if recent.length < stability_window then false
    else
      let avg := recent.sum / (recent.length : Q)
      let tolerance := 1 - threshold
      recent.all (fun score => decide (pyAbs (score - avg) < tolerance))

/-- The spec's wording of the local-convergence check: it takes "the last
`stabilityWindow` elements" of the history (also for `stabilityWindow = 0`,
where that is the empty window). Kept for comparison with the code's
`check_local_convergence`. -/
def check_local_convergence_claim (results_history : List Q) (threshold : Q)
    (min_iterations stability_window : ℕ) : Bool :=
  if results_history.length < min_iterations then false
  else
    let recent := results_history.drop (results_history.length - stability_window)
    if recent.length < stability_window then false
    else
      let avg := recent.sum / (recent.length : Q)
      let tolerance := 1 - threshold
      recent.all (fun score => decide (pyAbs (score - avg) < tolerance))

/-- `Goal` (src/models.py:41-45); ids are opaque strings generated externally. -/
structure Goal where
  id : String
  description : String
  completed : Bool
  confidence : Q
deriving DecidableEq, Repr

/-- `HModuleState` (src/models.py:55-62). The opaque map fields
`problem_representation` / `global_context` and the decision log (read by no
operation verified here) are omitted. -/
structure HModuleState where
  completed_subgoals : List Goal := []
  pending_subgoals : List Goal := []
  overall_confidence : Q := 0
  iteration : ℕ := 0
deriving DecidableEq, Repr

/-- `ConvergenceDetector.check_global_convergence` (src/convergence.py:26-40).
Python truthiness: `if not completed_subgoals` is the empty-list test. -/
def check_global_convergence (h_state : HModuleState) (confidence_threshold : Q) : Bool :=
  if h_state.completed_subgoals.isEmpty then false
  else if !h_state.pending_subgoals.isEmpty then false
  else if h_state.overall_confidence < confidence_threshold then false
  else true

/-- `TaskType` (src/models.py:9-13). -/
inductive TaskType where
  | implementation
  | refactoring
  | debugging
  | optimization
deriving DecidableEq, Repr

/-- The `{success, confidence}` of an L→H result dictionary, with the
`dict.get` defaults of src/reasoning_engine.py:56-57 already applied. -/
structure LResult where
  success : Bool
  confidence : Q
deriving DecidableEq, Repr

/-- `HModule._update_overall_confidence` (src/reasoning_engine.py:122-137). -/
def update_overall_confidence (st : HModuleState) : HModuleState :=
  if st.completed_subgoals.isEmpty && st.pending_subgoals.isEmpty then
    { st with overall_confidence := 0 }
  else if st.completed_subgoals.length = 0 then
    { st with overall_confidence := 1/10 }
  else
    let total_goals : Q := (st.completed_subgoals.length : Q) + (st.pending_subgoals.length : Q)
    let completed_count : Q := (st.completed_subgoals.length : Q)
    let avg_completed_confidence :=
      (st.completed_subgoals.map Goal.confidence).sum / completed_count
    let progress_ratio := completed_count / total_goals
    { st with overall_confidence := min (19/20) (avg_completed_confidence * progress_ratio) }

/-- Model of `next((i for i, g in enumerate(goals) if g.id == goal_id), None)`
(src/reasoning_engine.py:59-62): index of the first goal carrying the id. -/
def find_goal_index (goal_id : String) : List Goal → Option ℕ
  | [] => none
  | g :: rest =>
    if g.id = goal_id then some 0 else (find_goal_index goal_id rest).map (· + 1)

/-- Model of Python `list.pop(i)`: the removed element together with the list
without it (`none` when the index is out of range, which the source never
hits because the index comes from a successful search). -/
def pop_at {α : Type} : List α → ℕ → Option (α × List α)
  | [], _ => none
  | x :: rest, 0 => some (x, rest)
  | x :: rest, n + 1 => (pop_at rest n).map (fun r => (r.1, x :: r.2))

/-- `HModule.update_from_l_results` (src/reasoning_engine.py:55-72): when a
pending goal carries the id, it is popped, its completed/confidence fields
are overwritten from the outcome, and it is appended to `completed_subgoals`;
the overall confidence is recomputed in every case. -/
def update_from_l_results (st : HModuleState) (l_results : LResult) (goal_id : String) :
    HModuleState :=
  let st' :=
    match find_goal_index goal_id st.pending_subgoals with
    | some goal_index =>
      match pop_at st.pending_subgoals goal_index with
      | some (goal, remaining) =>
        { st with
          pending_subgoals := remaining
          completed_subgoals := st.completed_subgoals ++
            [{ goal with completed := l_results.success, confidence := l_results.confidence }] }
      | none => st
    | none => st
  update_overall_confidence st'

/-- `HModule._classify_task` (src/reasoning_engine.py:74-83). -/
def classify_task (task : String) : TaskType :=
  let task_lower := pyLower task
  if ["implement", "create", "build", "develop"].any (containsSub task_lower) then
    .implementation
  else if ["refactor", "restructure", "improve"].any (containsSub task_lower) then
    .refactoring
  else if ["debug", "fix", "resolve", "solve"].any (containsSub task_lower) then
    .debugging
  else
    .optimization

/-- `HModule._decompose_task` (src/reasoning_engine.py:85-107). In the source
each fresh `Goal` draws an unpredictable id from `uuid4`; the embedding takes
the id supply as the function `ids : ℕ → String` (the i-th goal created gets
id `ids i`); new goals start with `completed = false`, `confidence = 0`. -/
def decompose_task (ids : ℕ → String) (task : String) (task_type : TaskType) : List Goal :=
  match task_type with
  | .implementation =>
    [ ⟨ids 0, "Design architecture for: " ++ task, false, 0⟩,
      ⟨ids 1, "Implement core logic for: " ++ task, false, 0⟩,
      ⟨ids 2, "Add error handling for: " ++ task, false, 0⟩,
      ⟨ids 3, "Add tests for: " ++ task, false, 0⟩ ]
  | .refactoring =>
    [ ⟨ids 0, "Analyze current structure: " ++ task, false, 0⟩,
      ⟨ids 1, "Design new structure: " ++ task, false, 0⟩,
      ⟨ids 2, "Apply refactoring: " ++ task, false, 0⟩ ]
  | _ =>
    [ ⟨ids 0, "Analyze problem: " ++ task, false, 0⟩,
      ⟨ids 1, "Generate solution: " ++ task, false, 0⟩ ]

/-- `HModule.initialize_problem` (src/reasoning_engine.py:18-30), named
`init_problem` here: decomposes the task, overwrites `pending_subgoals`
(leaving `completed_subgoals` untouched) and sets the initial overall
confidence 0.3. The writes to the omitted opaque fields
(`problem_representation`, `global_context`) have no observable effect on
the verified operations. -/
def init_problem (ids : ℕ → String) (st : HModuleState) (task : String) : HModuleState :=
  let task_type := classify_task task
  let goals := decompose_task ids task task_type
  { st with pending_subgoals := goals, overall_confidence := 3/10 }

/-- The state of a fresh `HModule` (src/reasoning_engine.py:12-16 together
with the field defaults of src/models.py:55-62). -/
def freshHModuleState : HModuleState := {}

/-- Rounding-half-to-even of a rational to an integer; the tie-breaking rule
of the float formatting used by Python's `:.2f`. -/
def roundHalfEven (x : Q) : ℤ :=
  let f := ⌊x⌋
  let r := x - (f : Q)
  if r < 1/2 then f
  else if 1/2 < r then f + 1
  else if f % 2 = 0 then f else f + 1

/-- Model of the f-string fragment `{conf:.2f}` for a nonnegative confidence:
two decimal places, ties to even. -/
def fmt2 (q : Q) : String :=
  let c := (roundHalfEven (q * 100)).toNat
  let ip := c / 100
  let fp := c % 100
  toString ip ++ "." ++ (if fp < 10 then "0" else "") ++ toString fp

/-- `ReasoningEngine._compile_final_solution` (src/reasoning_engine.py:336-349).
Besides `completed_subgoals` it also reads `overall_confidence`: when some
completed goal failed (not completed, or confidence below 0.3) and the overall
confidence is below 0.6 it returns the fixed contradictory-requirements
marker instead of the per-goal report. -/
def compile_final_solution (st : HModuleState) : String :=
  if st.completed_subgoals.isEmpty then "No solution completed"
  else
    let failed_goals := st.completed_subgoals.filter
      (fun g => !g.completed || decide (g.confidence < 3/10))
    if !failed_goals.isEmpty && decide (st.overall_confidence < 3/5) then
      "Task contains contradictory or impossible requirements that cannot be satisfied"
    else
      "Completed solutions:\n" ++ String.intercalate "\n"
        (st.completed_subgoals.map
          (fun g => "- " ++ g.description ++ " (confidence: " ++ fmt2 g.confidence ++ ")"))

/-- The claim's wording of the final-solution compilation: a function of
`completedGoals` ALONE — empty ledger gives the fixed no-solution marker and
any other ledger gives the concatenated per-goal report. Kept for comparison
with the code's `compile_final_solution`. -/
def compile_final_solution_claim (completed : List Goal) : String :=
  if completed.isEmpty then "No solution completed"
  else
    "Completed solutions:\n" ++ String.intercalate "\n"
      (completed.map
        (fun g => "- " ++ g.description ++ " (confidence: " ++ fmt2 g.confidence ++ ")"))

/-- The amended claim's wording: the compilation is a function of
`completedGoals` and `overallConfidence`, with the contradictory-requirements
middle branch made explicit. -/
def compile_final_solution_amended (completed : List Goal) (overall : Q) : String :=
  if completed.isEmpty then "No solution completed"
  else if completed.any (fun g => !g.completed || decide (g.confidence < 3/10))
          && decide (overall < 3/5) then
    "Task contains contradictory or impossible requirements that cannot be satisfied"
  else
    "Completed solutions:\n" ++ String.intercalate "\n"
      (completed.map
        (fun g => "- " ++ g.description ++ " (confidence: " ++ fmt2 g.confidence ++ ")"))

/-- The fields of the instruction dictionary that
`LModule._execute_single_cycle` reads, with the `dict.get` defaults of
src/reasoning_engine.py:204-205 already applied:
`instruction.get("goal", ...).get("description", "")` and
`instruction.get("task", "")`. -/
structure Instruction where
  goalDescription : String := ""
  task : String := ""
deriving DecidableEq, Repr

/-- The `{feasible, confidence, reason}` dictionary returned by
`LModule._assess_task_feasibility`; the feasible case carries no reason key,
modelled as `""` (never read on that path). -/
structure Feasibility where
  feasible : Bool
  confidence : Q
  reason : String
deriving DecidableEq, Repr

/-- The `{solution, success, confidence}` dictionary returned by
`LModule._execute_single_cycle`. -/
structure CycleResult where
  solution : String
  success : Bool
  confidence : Q
deriving DecidableEq, Repr

/-- `contradiction_patterns` (src/reasoning_engine.py:246-252). -/
def contradiction_patterns : List (String × String × List String) :=
  [ ("both", "and", ["sort", "reverse", "maintain", "original"]),
    ("simultaneously", "", ["opposite", "contradictory"]),
    ("returns both", "", ["true", "false"]),
    ("both", "and", ["increase", "decrease"]),
    ("maintain", "while", ["changing", "modifying"]) ]

/-- `LModule._assess_task_feasibility` (src/reasoning_engine.py:241-272).
`if not connector or connector in combined_text`: the empty string is falsy in
Python, hence the `connector = ""` disjunct. All pattern hits return the same
dictionary, so the first-hit loop is an `any`. -/
def assess_task_feasibility (goal_desc original_task : String) : Feasibility :=
  let combined_text := pyLower (goal_desc ++ " " ++ original_task)
  if contradiction_patterns.any (fun p =>
      containsSub combined_text p.1 &&
      (p.2.1 == "" || containsSub combined_text p.2.1) &&
      p.2.2.any (containsSub combined_text)) then
    ⟨false, 3/20, "Task contains contradictory requirements that cannot be satisfied simultaneously"⟩
  else if (pyStrip combined_text).length < 10 then
    ⟨false, 1/4, "Task description too vague to implement effectively"⟩
  else
    ⟨true, 17/20, ""⟩

/-- `LModule._execute_single_cycle` (src/reasoning_engine.py:203-239). -/
def execute_single_cycle (instruction : Instruction) : CycleResult :=
  let goal_desc := instruction.goalDescription
  let feasibility_result := assess_task_feasibility goal_desc instruction.task
  if !feasibility_result.feasible then
    ⟨feasibility_result.reason, false, feasibility_result.confidence⟩
  else if containsSub (pyLower goal_desc) "design" then
    ⟨"Architecture design for: " ++ goal_desc, true, 17/20⟩
  else if containsSub (pyLower goal_desc) "implement" then
    ⟨"Implementation for: " ++ goal_desc, true, 9/10⟩
  else if containsSub (pyLower goal_desc) "test" then
    ⟨"Test suite for: " ++ goal_desc, true, 4/5⟩
  else
    ⟨"Solution for: " ++ goal_desc, true, 3/4⟩

/-- `LModule.MAX_ITERATIONS` (src/reasoning_engine.py:141). -/
def MAX_ITERATIONS : ℕ := 1000

/-- An `LModuleTrace` entry (src/models.py:65-69; timestamp omitted). -/
structure LModuleTrace where
  action : String
  result : CycleResult
  success : Bool
deriving DecidableEq, Repr

/-- The loop-carried part of `LModule.execute_cycles`: the fresh
`LModuleState` (iteration counter and execution trace), the accumulated
`confidence_history`, and the Python local `result` (None until the loop body
first runs, which is what makes `max_cycles = 0` crash at the end). -/
structure LoopState where
  iteration : ℕ
  confidence_history : List Q
  execution_trace : List LModuleTrace
  result : Option CycleResult
deriving DecidableEq, Repr

/-- The `for cycle in range(max_cycles)` loop of `LModule.execute_cycles`
(src/reasoning_engine.py:171-191), parameterised over the per-cycle
collaborator `attempt` (the source calls `self._execute_single_cycle`
each cycle; spec §6 treats it as the black-box execution-strategy
collaborator). `fuel` is the number of loop indices still to run, so the
current index is `max_cycles - fuel`. -/
def execute_cycles_go (attempt : ℕ → CycleResult) (max_cycles : ℕ) :
    ℕ → LoopState → LoopState
  | 0, st => st
  | fuel + 1, st =>
    if MAX_ITERATIONS ≤ st.iteration then st
    else
      let cycle := max_cycles - (fuel + 1)
      let result := attempt cycle
      let history := st.confidence_history ++ [result.confidence]
      let st' : LoopState :=
        { iteration := cycle
          confidence_history := history
          execution_trace := st.execution_trace ++
            [⟨"Cycle " ++ toString cycle, result, result.success⟩]
          result := some result }
      if check_local_convergence history (9/10) 3 3 then st'
      else execute_cycles_go attempt max_cycles fuel st'

/-- The outcome dictionary returned by `LModule.execute_cycles`
(src/reasoning_engine.py:195-201). -/
structure LOutcome where
  solution : String
  success : Bool
  confidence : Q
  iterations : ℕ
  trace : List LModuleTrace
deriving DecidableEq, Repr

/-- `LModule.execute_cycles` (src/reasoning_engine.py:162-201) over an
arbitrary per-cycle collaborator. The fresh `LModuleState(current_task=...)`
starts with `iteration = 0` and an empty trace; the Python local `result`
starts unbound. `none` models the `NameError` raised when the loop body never
ran and line 196 reads the unbound `result`. -/
def execute_cycles_with (attempt : ℕ → CycleResult) (max_cycles : ℕ) : Option LOutcome :=
  let st := execute_cycles_go attempt max_cycles max_cycles ⟨0, [], [], none⟩
  match st.result with
  | none => none
  | some result =>
    some
      { solution := result.solution
        success := result.success
        confidence := (st.confidence_history.getLast?).getD 0
        iterations := st.iteration + 1
        trace := st.execution_trace }

/-- `LModule.execute_cycles` itself: every cycle invokes
`self._execute_single_cycle(instruction)` with the same instruction. -/
def execute_cycles (instruction : Instruction) (max_cycles : ℕ) : Option LOutcome :=
  execute_cycles_with (fun _ => execute_single_cycle instruction) max_cycles

/-- `SessionStatus` (src/models.py:22-26). -/
inductive SessionStatus where
  | active
  | completed
  | timeout
  | error
deriving DecidableEq, Repr

/-- Snapshot of an `LModuleState` as carried by a session (src/models.py:72-76).
Persistence stores and restores it wholesale, so only its identity matters for
the persistence claims; the opaque `current_task` dictionary and the trace
payload are represented by the iteration counter alone. -/
structure SessionLState where
  iteration : ℕ
deriving DecidableEq, Repr

/-- `ReasoningSession` (src/models.py:79-86). Timestamps are opaque instants
(`datetime.isoformat` / `datetime.fromisoformat` round-trip exactly on aware
datetimes, so serialisation is the identity on them); the final-solution
payload is opaque. -/
structure ReasoningSession where
  session_id : String
  status : SessionStatus := .active
  created_at : ℤ := 0
  updated_at : ℤ := 0
  h_module_state : Option HModuleState := none
  l_module_state : Option SessionLState := none
  final_solution : Option String := none
deriving DecidableEq, Repr

/-- One row of the `sessions` table (src/state_manager.py:19-27): the primary
key is the column `session_id`; `metadata` is the JSON blob
`{h_state, l_state, solution}` written by `save_session`. `json.dumps` of a
`model_dump` followed by `model_validate` of the parse is the identity on the
modelled values, so the row stores the field values themselves. -/
structure SessionRow where
  status : SessionStatus
  created_at : ℤ
  updated_at : ℤ
  h_state : Option HModuleState
  l_state : Option SessionLState
  solution : Option String
deriving DecidableEq, Repr

/-- A keyed table (SQLite table with a TEXT primary key, or a Python dict
keyed by the session id). -/
abbrev Table (α : Type) : Type := List (String × α)

/-- Keyed insert-or-replace: `INSERT OR REPLACE` on a primary key, or Python
`d[k] = v`. -/
def tableSet {α : Type} : Table α → String → α → Table α
  | [], k, v => [(k, v)]
  | (k', v') :: rest, k, v =>
    if k' = k then (k, v) :: rest else (k', v') :: tableSet rest k v

/-- Keyed lookup: `SELECT ... WHERE session_id = ?`, or Python `d.get(k)`. -/
def tableGet {α : Type} : Table α → String → Option α
  | [], _ => none
  | (k', v') :: rest, k => if k' = k then some v' else tableGet rest k

/-- `StateManager.save_session` (src/state_manager.py:67-84):
`INSERT OR REPLACE` of the full row keyed by the session id. -/
def save_session (db : Table SessionRow) (session : ReasoningSession) : Table SessionRow :=
  tableSet db session.session_id
    ⟨session.status, session.created_at, session.updated_at,
     session.h_module_state, session.l_module_state, session.final_solution⟩

/-- `StateManager.load_session` (src/state_manager.py:86-106). Note the
constructed `ReasoningSession` passes no `l_module_state` argument: the
`l_state` entry of the metadata blob is parsed but never restored, so the
loaded session's `l_module_state` is the field default `None`. -/
def load_session (db : Table SessionRow) (session_id : String) : Option ReasoningSession :=
  (tableGet db session_id).map fun row =>
    { session_id := session_id
      status := row.status
      created_at := row.created_at
      updated_at := row.updated_at
      h_module_state := row.h_state
      l_module_state := none
      final_solution := row.solution }

/-- The claim's wording of `load_session`: "load restores every persisted
field of the session ... L-module state ... unchanged". Kept for comparison
with the code's `load_session`. -/
def load_session_claim (db : Table SessionRow) (session_id : String) :
    Option ReasoningSession :=
  (tableGet db session_id).map fun row =>
    { session_id := session_id
      status := row.status
      created_at := row.created_at
      updated_at := row.updated_at
      h_module_state := row.h_state
      l_module_state := row.l_state
      final_solution := row.solution }

/-- `HRMServer` state (src/hrm_mcp_server.py:13-19): the in-memory
`active_sessions` dictionary and the persistent store behind
`state_manager`. -/
structure ServerState where
  active_sessions : Table ReasoningSession := []
  db : Table SessionRow := []
deriving DecidableEq, Repr

/-- `HRMServer.create_session` (src/hrm_mcp_server.py:67-77). The admission
check compares `len(active_sessions)` with the configured
`max_concurrent_sessions`; at or above the ceiling it raises
`RuntimeError("Maximum concurrent sessions reached")`, modelled as `.error`.
`new_id` stands for the fresh `uuid4()` and `now` for the creation instant. -/
def create_session (max_concurrent_sessions : ℕ) (st : ServerState)
    (new_id : String) (now : ℤ) : Except String ServerState :=
  if max_concurrent_sessions ≤ st.active_sessions.length then
    .error "Maximum concurrent sessions reached"
  else
    let session : ReasoningSession :=
      { session_id := new_id, created_at := now, updated_at := now }
    .ok { active_sessions := tableSet st.active_sessions new_id session
          db := save_session st.db session }

/-- `HRMServer.update_session` (src/hrm_mcp_server.py:82-84): writes the
session back into `active_sessions` (same key) and persists it. -/
def update_session (st : ServerState) (session : ReasoningSession) : ServerState :=
  { active_sessions := tableSet st.active_sessions session.session_id session
    db := save_session st.db session }

/-- `HRMServer.complete_session` (src/hrm_mcp_server.py:86-91): marks the
session COMPLETED, attaches the result, and calls `update_session` — it never
removes the session from `active_sessions`. -/
def complete_session (st : ServerState) (session_id : String) (result : String) :
    ServerState :=
  match tableGet st.active_sessions session_id with
  | some session =>
    update_session st
      { session with status := .completed, final_solution := some result }
  | none => st

/-- An execution-strategy collaborator (spec §6) whose confidences oscillate
between 0.9 and 0.1: its reported confidence history is never locally stable,
so `execute_cycles` can only stop through cycle exhaustion or the hard
ceiling. Every attempt reports success. -/
def oscillating_attempt (n : ℕ) : CycleResult :=
  ⟨"s", true, if n % 2 = 0 then 9/10 else 1/10⟩

/-- The loop state of `execute_cycles` after `c` executed cycles (for the
runs in which local convergence never fires): the iteration counter holds the
last executed cycle index, the history and trace hold one entry per executed
cycle, and the `result` local holds the last cycle's result. -/
def loop_state_after (attempt : ℕ → CycleResult) (c : ℕ) : LoopState :=
  { iteration := c - 1
    confidence_history := (List.range c).map fun i => (attempt i).confidence
    execution_trace := (List.range c).map fun i =>
      ⟨"Cycle " ++ toString i, attempt i, (attempt i).success⟩
    result := if c = 0 then none else some (attempt (c - 1)) }

/-! ## Theorems -/

/-- C5 (amended): for every history and parameters WITH `stabilityWindow ≥ 1`
(for `stabilityWindow = 0` the code's Python slice `history[-0:]` takes the
whole history, not the last zero elements — see `c5_counterexample`),
`checkLocalConvergence` returns false when `|history| < minIterations` or
fewer than `stabilityWindow` elements are available, and otherwise returns
true exactly when every element of the last `stabilityWindow` elements lies
strictly within `1 - threshold` absolute distance of that window's arithmetic
mean; on history `[0.85, 0.86, 0.87, 0.86, 0.85]` with threshold `0.90` it
returns true, and on `[0.5, 0.8, 0.5, 0.8, 0.5, 0.8, 0.5]` with threshold
`0.95` it returns false. -/
theorem c5_local_convergence_amended :
    (∀ (h : List Q) (T : Q) (mi w : ℕ), 1 ≤ w →
      (check_local_convergence h T mi w = true ↔
        mi ≤ h.length ∧ w ≤ h.length ∧
          ∀ x ∈ h.drop (h.length - w),
            pyAbs (x - (h.drop (h.length - w)).sum / ((h.drop (h.length - w)).length : Q))
              < 1 - T))
    ∧ check_local_convergence [85/100, 86/100, 87/100, 86/100, 85/100] (9/10) 3 3 = true
    ∧ check_local_convergence [1/2, 4/5, 1/2, 4/5, 1/2, 4/5, 1/2] (19/20) 3 3 = false := by
  refine ⟨?_, ?_, ?_⟩
  · intro h T mi w hw
    have hw0 : ¬ w = 0 := by omega
    unfold check_local_convergence pySliceLast
    simp only [hw0, if_false]
    by_cases h1 : h.length < mi
    · simp only [h1, if_true]
      constructor
      · intro hc; exact absurd hc (by simp)
      · intro hc; omega
    · simp only [h1, if_false, List.length_drop]
      by_cases h2 : h.length - (h.length - w) < w
      · simp only [h2, if_true]
        constructor
        · intro hc; exact absurd hc (by simp)
        · intro hc; omega
      · simp only [h2, if_false, List.all_eq_true, decide_eq_true_eq]
        have hwl : w ≤ h.length := by omega
        constructor
        · intro hall; exact ⟨by omega, hwl, hall⟩
        · intro hc; exact hc.2.2
  · norm_num [check_local_convergence, pySliceLast, pyAbs]
  · norm_num [check_local_convergence, pySliceLast, pyAbs]

/-- C5 witness: the amended equivalence applied to the concrete history
`[0.85, 0.86, 0.87, 0.86, 0.85]` with the default parameters. -/
theorem c5_witness :
    check_local_convergence [85/100, 86/100, 87/100, 86/100, 85/100] (9/10) 3 3 = true ↔
      3 ≤ ([85/100, 86/100, 87/100, 86/100, 85/100] : List Q).length ∧
      3 ≤ ([85/100, 86/100, 87/100, 86/100, 85/100] : List Q).length ∧
      ∀ x ∈ ([85/100, 86/100, 87/100, 86/100, 85/100] : List Q).drop
          (([85/100, 86/100, 87/100, 86/100, 85/100] : List Q).length - 3),
        pyAbs (x -
            (([85/100, 86/100, 87/100, 86/100, 85/100] : List Q).drop
                (([85/100, 86/100, 87/100, 86/100, 85/100] : List Q).length - 3)).sum /
              ((([85/100, 86/100, 87/100, 86/100, 85/100] : List Q).drop
                  (([85/100, 86/100, 87/100, 86/100, 85/100] : List Q).length - 3)).length : Q))
          < 1 - 9/10 :=
  c5_local_convergence_amended.1 [85/100, 86/100, 87/100, 86/100, 85/100] (9/10) 3 3
    (by norm_num)

/-- C5 counterexample: with `stabilityWindow = 0` (and `minIterations = 0`,
threshold `0.5`, history `[0, 1]`) the code checks the tolerance over the
WHOLE history (Python `[-0:]` is the full slice) and returns false, while the
claim's reading — every element of the last zero elements is within
tolerance — is vacuously true. -/
theorem c5_counterexample :
    check_local_convergence [0, 1] (1/2) 0 0 = false ∧
    check_local_convergence_claim [0, 1] (1/2) 0 0 = true := by
  constructor
  · norm_num [check_local_convergence, pySliceLast, pyAbs]
  · norm_num [check_local_convergence_claim, pyAbs]

/-- C6: threshold ordering — if `checkLocalConvergence` holds at threshold
`T`, it holds at every threshold `T' < T` for the same history and
parameters. -/
theorem c6_threshold_ordering (h : List Q) (mi w : ℕ) (T T' : Q)
    (hlt : T' < T)
    (hc : check_local_convergence h T mi w = true) :
    check_local_convergence h T' mi w = true := by
  unfold check_local_convergence at hc ⊢
  by_cases h1 : h.length < mi
  · simp only [h1, if_true] at hc; exact absurd hc (by simp)
  · simp only [h1, if_false] at hc ⊢
    by_cases h2 : (pySliceLast w h).length < w
    · simp only [h2, if_true] at hc; exact absurd hc (by simp)
    · simp only [h2, if_false, List.all_eq_true, decide_eq_true_eq] at hc ⊢
      intro x hx
      have := hc x hx
      linarith

/-- C6 witness: the ordering applied to the stable history of end-to-end
scenario B at thresholds `0.90 > 0.80`. -/
theorem c6_witness :
    check_local_convergence [85/100, 86/100, 87/100, 86/100, 85/100] (8/10) 3 3 = true :=
  c6_threshold_ordering [85/100, 86/100, 87/100, 86/100, 85/100] 3 3 (9/10) (8/10)
    (by norm_num)
    (by norm_num [check_local_convergence, pySliceLast, pyAbs])

/-- C7: `checkGlobalConvergence` is true exactly when `completedGoals` is
non-empty, `pendingGoals` is empty, and `overallConfidence` is at least the
confidence threshold; it is false whenever any single condition fails. -/
theorem c7_global_convergence (st : HModuleState) (thr : Q) :
    check_global_convergence st thr = true ↔
      st.completed_subgoals ≠ [] ∧ st.pending_subgoals = [] ∧
        thr ≤ st.overall_confidence := by
  unfold check_global_convergence
  split_ifs with h1 h2 h3 <;>
    simp_all [List.isEmpty_iff, not_lt]

/-- C7 witness: the equivalence applied to a concrete converged state (one
completed goal, no pending goals, confidence 0.9 against threshold 0.85). -/
theorem c7_witness :
    check_global_convergence
      { completed_subgoals := [⟨"a", "g", true, 9/10⟩],
        pending_subgoals := [],
        overall_confidence := 9/10,
        iteration := 1 } (17/20) = true :=
  (c7_global_convergence _ (17/20)).mpr (by norm_num)

lemma update_overall_confidence_pending (s : HModuleState) :
    (update_overall_confidence s).pending_subgoals = s.pending_subgoals := by
  unfold update_overall_confidence
  split_ifs <;> rfl

lemma update_overall_confidence_completed (s : HModuleState) :
    (update_overall_confidence s).completed_subgoals = s.completed_subgoals := by
  unfold update_overall_confidence
  split_ifs <;> rfl

/-- The overall-confidence recomputation, characterised by the spec's formula:
0 when no goals exist at all, the fixed floor 0.1 when none are completed,
and otherwise the mean confidence of completed goals times the completed
ratio, capped at 0.95. -/
lemma update_overall_confidence_spec (s : HModuleState) :
    (update_overall_confidence s).overall_confidence =
      if s.completed_subgoals = [] ∧ s.pending_subgoals = [] then 0
      else if s.completed_subgoals = [] then 1/10
      else
        min (19/20)
          (((s.completed_subgoals.map Goal.confidence).sum /
              (s.completed_subgoals.length : Q)) *
            ((s.completed_subgoals.length : Q) /
              ((s.completed_subgoals.length : Q) + (s.pending_subgoals.length : Q)))) := by
  unfold update_overall_confidence
  split_ifs with h1 h2 h3 h4 h5 h6 <;>
    simp_all [List.isEmpty_iff, List.length_eq_zero]

lemma find_goal_index_of_split (goal_id : String) (pre : List Goal) (g : Goal)
    (post : List Goal) (hpre : ∀ x ∈ pre, x.id ≠ goal_id) (hg : g.id = goal_id) :
    find_goal_index goal_id (pre ++ g :: post) = some pre.length := by
  induction pre with
  | nil => simp [find_goal_index, hg]
  | cons x rest ih =>
    have hx : x.id ≠ goal_id := hpre x (by simp)
    have : ∀ y ∈ rest, y.id ≠ goal_id := fun y hy => hpre y (by simp [hy])
    simp [find_goal_index, hx, ih this]

lemma find_goal_index_of_absent (goal_id : String) (l : List Goal)
    (habs : ∀ x ∈ l, x.id ≠ goal_id) :
    find_goal_index goal_id l = none := by
  induction l with
  | nil => rfl
  | cons x rest ih =>
    have hx : x.id ≠ goal_id := habs x (by simp)
    have : ∀ y ∈ rest, y.id ≠ goal_id := fun y hy => habs y (by simp [hy])
    simp [find_goal_index, hx, ih this]

lemma pop_at_of_split {α : Type} (pre : List α) (g : α) (post : List α) :
    pop_at (pre ++ g :: post) pre.length = some (g, pre ++ post) := by
  induction pre with
  | nil => rfl
  | cons x rest ih => simp [pop_at, ih]

lemma pop_at_length {α : Type} :
    ∀ (l : List α) (i : ℕ) (g : α) (rest : List α),
      pop_at l i = some (g, rest) → rest.length + 1 = l.length := by
  intro l
  induction l with
  | nil => intro i g rest h; exact absurd h (by simp [pop_at])
  | cons x xs ih =>
    intro i g rest h
    match i with
    | 0 =>
      simp only [pop_at, Option.some.injEq, Prod.mk.injEq] at h
      simp [← h.2]
    | n + 1 =>
      simp only [pop_at, Option.map_eq_some'] at h
      obtain ⟨⟨g', rest'⟩, hpop, heq⟩ := h
      obtain ⟨rfl, rfl⟩ := Prod.mk.injEq .. ▸ heq
      simp only [Prod.mk.injEq] at heq
      have := ih n g' rest' hpop
      simp only [List.length_cons]
      omega

/-- C3: an `updateFromOutcome` call whose goal id is present in
`pendingGoals` moves the (first) goal with that id from `pendingGoals` to the
end of `completedGoals`, its completed flag set from the outcome's success
and its confidence from the outcome's confidence, unconditionally; a call
whose goal id is absent leaves both partitions unchanged; and in every case
the overall confidence is recomputed as 0 when no goals exist at all, the
floor 0.1 when none are completed, and otherwise
`min(0.95, meanConfidenceOfCompleted * completedRatio)`. -/
theorem c3_update_from_outcome (st : HModuleState) (l : LResult) (gid : String) :
    (∀ pre g post, st.pending_subgoals = pre ++ g :: post → g.id = gid →
        (∀ x ∈ pre, x.id ≠ gid) →
        (update_from_l_results st l gid).pending_subgoals = pre ++ post ∧
        (update_from_l_results st l gid).completed_subgoals =
          st.completed_subgoals ++
            [{ g with completed := l.success, confidence := l.confidence }])
    ∧ ((∀ g ∈ st.pending_subgoals, g.id ≠ gid) →
        (update_from_l_results st l gid).pending_subgoals = st.pending_subgoals ∧
        (update_from_l_results st l gid).completed_subgoals = st.completed_subgoals)
    ∧ (update_from_l_results st l gid).overall_confidence =
        (if (update_from_l_results st l gid).completed_subgoals = [] ∧
            (update_from_l_results st l gid).pending_subgoals = [] then 0
         else if (update_from_l_results st l gid).completed_subgoals = [] then 1/10
         else
           min (19/20)
             ((((update_from_l_results st l gid).completed_subgoals.map Goal.confidence).sum /
                 ((update_from_l_results st l gid).completed_subgoals.length : Q)) *
               (((update_from_l_results st l gid).completed_subgoals.length : Q) /
                 (((update_from_l_results st l gid).completed_subgoals.length : Q) +
                   ((update_from_l_results st l gid).pending_subgoals.length : Q))))) := by
  refine ⟨?_, ?_, ?_⟩
  · intro pre g post hsplit hg hpre
    have hfind : find_goal_index gid st.pending_subgoals = some pre.length := by
      rw [hsplit]; exact find_goal_index_of_split gid pre g post hpre hg
    have hpop : pop_at st.pending_subgoals pre.length = some (g, pre ++ post) := by
      rw [hsplit]; exact pop_at_of_split pre g post
    unfold update_from_l_results
    simp only [hfind, hpop]
    exact ⟨update_overall_confidence_pending _, update_overall_confidence_completed _⟩
  · intro habs
    have hfind : find_goal_index gid st.pending_subgoals = none :=
      find_goal_index_of_absent gid st.pending_subgoals habs
    unfold update_from_l_results
    simp only [hfind]
    exact ⟨update_overall_confidence_pending _, update_overall_confidence_completed _⟩
  · unfold update_from_l_results
    rw [update_overall_confidence_spec, update_overall_confidence_pending,
      update_overall_confidence_completed]

/-- C3 witness: the update applied to a concrete two-goal state; the matched
goal moves to `completedGoals` with the outcome's success and confidence, and
the overall confidence becomes `min(0.95, 0.8 * 1/2) = 0.4`. -/
theorem c3_witness :
    (update_from_l_results
        { pending_subgoals := [⟨"a", "first", false, 0⟩, ⟨"b", "second", false, 0⟩],
          completed_subgoals := [] } ⟨true, 4/5⟩ "a").pending_subgoals =
        [⟨"b", "second", false, 0⟩] ∧
    (update_from_l_results
        { pending_subgoals := [⟨"a", "first", false, 0⟩, ⟨"b", "second", false, 0⟩],
          completed_subgoals := [] } ⟨true, 4/5⟩ "a").completed_subgoals =
        [⟨"a", "first", true, 4/5⟩] := by
  have h :=
    (c3_update_from_outcome
      { pending_subgoals := [⟨"a", "first", false, 0⟩, ⟨"b", "second", false, 0⟩],
        completed_subgoals := [] } ⟨true, 4/5⟩ "a").1
      [] ⟨"a", "first", false, 0⟩ [⟨"b", "second", false, 0⟩] rfl rfl (by simp)
  simpa using h

lemma update_from_l_results_count (st : HModuleState) (l : LResult) (gid : String) :
    (update_from_l_results st l gid).pending_subgoals.length +
        (update_from_l_results st l gid).completed_subgoals.length =
      st.pending_subgoals.length + st.completed_subgoals.length := by
  unfold update_from_l_results
  cases hfind : find_goal_index gid st.pending_subgoals with
  | none =>
    rw [update_overall_confidence_pending, update_overall_confidence_completed]
  | some i =>
    rw [update_overall_confidence_pending, update_overall_confidence_completed]
    cases hpop : pop_at st.pending_subgoals i with
    | none => simp only [hpop]
    | some pr =>
      obtain ⟨g, remaining⟩ := pr
      simp only [hpop]
      have := pop_at_length st.pending_subgoals i g remaining hpop
      simp only [List.length_append, List.length_cons, List.length_nil]
      omega

/-- C4: goal conservation — for every decomposition (over any task and id
supply) and every sequence of `updateFromOutcome` calls with arbitrary goal
ids and outcomes, `|pendingGoals| + |completedGoals|` stays equal to the
number of goals established by the initial decomposition. -/
theorem c4_goal_conservation (ids : ℕ → String) (task : String)
    (updates : List (LResult × String)) :
    ((updates.foldl (fun s u => update_from_l_results s u.1 u.2)
        (init_problem ids freshHModuleState task)).pending_subgoals.length +
      (updates.foldl (fun s u => update_from_l_results s u.1 u.2)
        (init_problem ids freshHModuleState task)).completed_subgoals.length) =
      (decompose_task ids task (classify_task task)).length := by
  have hfold : ∀ (us : List (LResult × String)) (s : HModuleState),
      (us.foldl (fun s u => update_from_l_results s u.1 u.2) s).pending_subgoals.length +
        (us.foldl (fun s u => update_from_l_results s u.1 u.2) s).completed_subgoals.length =
      s.pending_subgoals.length + s.completed_subgoals.length := by
    intro us
    induction us with
    | nil => intro s; rfl
    | cons u rest ih =>
      intro s
      rw [List.foldl_cons, ih]
      exact update_from_l_results_count s u.1 u.2
  rw [hfold]
  simp [init_problem, freshHModuleState]

lemma filter_isEmpty_eq_not_any {α : Type} (p : α → Bool) (l : List α) :
    (l.filter p).isEmpty = !l.any p := by
  induction l with
  | nil => rfl
  | cons x xs ih => cases hx : p x <;> simp [List.filter_cons, hx, ih]

/-- C8 (amended): the final solution is compiled deterministically from
`completedGoals` AND `overallConfidence`: the fixed no-solution marker when
`completedGoals` is empty; the fixed contradictory-requirements marker when
some completed goal failed (not completed, or confidence below 0.3) and the
overall confidence is below 0.6; and otherwise the ordered concatenation of
each completed goal's description and confidence. -/
theorem c8_compile_final_solution_amended (st : HModuleState) :
    compile_final_solution st =
      compile_final_solution_amended st.completed_subgoals st.overall_confidence := by
  unfold compile_final_solution compile_final_solution_amended
  simp only [filter_isEmpty_eq_not_any, Bool.not_not]

/-- C8 counterexample: a reachable state (decompose "foo bar baz" into two
goals, then ingest a failed outcome with confidence 0.15 for the first goal)
on which the code emits the contradictory-requirements marker — which depends
on `overallConfidence`, not on `completedGoals` alone — while the claim's
reading emits the concatenated per-goal report. -/
theorem c8_counterexample :
    compile_final_solution
        (update_from_l_results (init_problem (fun n => toString n) freshHModuleState "foo bar baz")
          ⟨false, 3/20⟩ "0") =
      "Task contains contradictory or impossible requirements that cannot be satisfied" ∧
    compile_final_solution_claim
        (update_from_l_results (init_problem (fun n => toString n) freshHModuleState "foo bar baz")
          ⟨false, 3/20⟩ "0").completed_subgoals =
      "Completed solutions:\n- Analyze problem: foo bar baz (confidence: 0.15)" := by
  have h1 : update_from_l_results
      (init_problem (fun n => toString n) freshHModuleState "foo bar baz")
      ⟨false, 3/20⟩ "0" =
      update_overall_confidence
        { completed_subgoals := [⟨"0", "Analyze problem: foo bar baz", false, 3/20⟩],
          pending_subgoals := [⟨"1", "Generate solution: foo bar baz", false, 0⟩],
          overall_confidence := 3/10, iteration := 0 } := by
    unfold update_from_l_results
    have hfind : find_goal_index "0"
        (init_problem (fun n => toString n) freshHModuleState "foo bar baz").pending_subgoals =
        some 0 := by decide
    have hpop : pop_at
        (init_problem (fun n => toString n) freshHModuleState "foo bar baz").pending_subgoals 0 =
        some (⟨"0", "Analyze problem: foo bar baz", false, 0⟩,
          [⟨"1", "Generate solution: foo bar baz", false, 0⟩]) := by decide
    rw [hfind]
    simp only [hpop]
    congr 1
  have hcomp : (update_from_l_results
      (init_problem (fun n => toString n) freshHModuleState "foo bar baz")
      ⟨false, 3/20⟩ "0").completed_subgoals =
      [⟨"0", "Analyze problem: foo bar baz", false, 3/20⟩] := by
    rw [h1, update_overall_confidence_completed]
  constructor
  · rw [h1]
    have hover : (update_overall_confidence
        { completed_subgoals := [⟨"0", "Analyze problem: foo bar baz", false, 3/20⟩],
          pending_subgoals := [⟨"1", "Generate solution: foo bar baz", false, 0⟩],
          overall_confidence := 3/10, iteration := 0 } : HModuleState).overall_confidence =
        3/40 := by
      rw [update_overall_confidence_spec]
      norm_num [min_def]
    unfold compile_final_solution
    rw [update_overall_confidence_completed, hover]
    norm_num [List.filter]
  · rw [hcomp]
    have hfmt : fmt2 (3/20) = "0.15" := by
      unfold fmt2 roundHalfEven
      norm_num
      rfl
    unfold compile_final_solution_claim
    simp only [List.isEmpty_cons, List.map_cons, List.map_nil, hfmt]
    decide

lemma tableGet_tableSet {α : Type} (db : Table α) (k : String) (v : α) :
    tableGet (tableSet db k v) k = some v := by
  induction db with
  | nil => simp [tableSet, tableGet]
  | cons kv rest ih =>
    by_cases h : kv.1 = k
    · simp [tableSet, tableGet, h]
    · simp [tableSet, tableGet, h, ih]

/-- C9 (amended): `save` is an upsert keyed by the session identity, and the
round trip restores status, timestamps, H-module state and final solution
unchanged — but NOT the L-module state, which `load` leaves empty; saving the
loaded value again and reloading is then a fixed point, so
`save(load(save(s)))` equals `save(s)` under reload. -/
theorem c9_persistence_amended (db : Table SessionRow) (s : ReasoningSession) :
    load_session (save_session db s) s.session_id =
      some { s with l_module_state := none } ∧
    load_session
        (save_session (save_session db s) { s with l_module_state := none })
        s.session_id =
      some { s with l_module_state := none } := by
  constructor
  · unfold load_session save_session
    rw [tableGet_tableSet]
    rfl
  · unfold load_session save_session
    rw [tableGet_tableSet]
    rfl

/-- C9 counterexample: a session carrying an L-module snapshot is saved, and
the load by its identity returns the session WITHOUT that snapshot
(`l_module_state = none`) — the code's `load_session` never passes the stored
`l_state` back — which differs from the claim's reading
(`load_session_claim`, restoring every persisted field). -/
theorem c9_counterexample :
    load_session
        (save_session [] { session_id := "a", l_module_state := some ⟨3⟩ }) "a" =
      some { session_id := "a", l_module_state := none } ∧
    load_session_claim
        (save_session [] { session_id := "a", l_module_state := some ⟨3⟩ }) "a" =
      some { session_id := "a", l_module_state := some ⟨3⟩ } ∧
    ({ session_id := "a", l_module_state := none } : ReasoningSession) ≠
      { session_id := "a", l_module_state := some ⟨3⟩ } := by
  refine ⟨rfl, rfl, ?_⟩
  intro h
  exact absurd (congrArg ReasoningSession.l_module_state h) (by simp)

/-- C2: with the admission ceiling at 3, three creations succeed; a fourth is
rejected with the raised `RuntimeError("Maximum concurrent sessions reached")`
— but completing one of the active sessions does NOT free a slot
(`complete_session` re-inserts the completed session into `active_sessions`),
so the next creation is rejected again, contrary to the claim. -/
theorem c2_admission_slot_not_freed :
    ((create_session 3 {} "a" 0).bind fun st1 =>
      (create_session 3 st1 "b" 0).bind fun st2 =>
        (create_session 3 st2 "c" 0).map fun st3 =>
          st3.active_sessions.length) = .ok 3 ∧
    ((create_session 3 {} "a" 0).bind fun st1 =>
      (create_session 3 st1 "b" 0).bind fun st2 =>
        (create_session 3 st2 "c" 0).bind fun st3 =>
          create_session 3 st3 "d" 0) = .error "Maximum concurrent sessions reached" ∧
    ((create_session 3 {} "a" 0).bind fun st1 =>
      (create_session 3 st1 "b" 0).bind fun st2 =>
        (create_session 3 st2 "c" 0).bind fun st3 =>
          create_session 3 (complete_session st3 "a" "done") "d" 0) =
      .error "Maximum concurrent sessions reached" := by
  refine ⟨rfl, rfl, rfl⟩

lemma execute_cycles_go_result_isSome (attempt : ℕ → CycleResult) (mc : ℕ) :
    ∀ (fuel : ℕ) (st : LoopState), st.result.isSome = true →
      (execute_cycles_go attempt mc fuel st).result.isSome = true := by
  intro fuel
  induction fuel with
  | zero => intro st h; exact h
  | succ f ih =>
    intro st h
    unfold execute_cycles_go
    by_cases h1 : MAX_ITERATIONS ≤ st.iteration
    · rw [if_pos h1]; exact h
    · rw [if_neg h1]
      by_cases h2 : check_local_convergence
          (st.confidence_history ++ [(attempt (mc - (f + 1))).confidence]) (9/10) 3 3
      · simp only [h2, if_true]; rfl
      · simp only [h2, if_false]
        exact ih _ rfl

lemma execute_cycles_with_isSome (attempt : ℕ → CycleResult) (mc : ℕ) :
    (execute_cycles_with attempt mc).isSome = decide (1 ≤ mc) := by
  cases mc with
  | zero => rfl
  | succ m =>
    unfold execute_cycles_with
    have hgo : (execute_cycles_go attempt (m + 1) (m + 1) ⟨0, [], [], none⟩).result.isSome
        = true := by
      unfold execute_cycles_go
      rw [if_neg (by simp [MAX_ITERATIONS])]
      by_cases h2 : check_local_convergence
          ([] ++ [(attempt ((m + 1) - (m + 1))).confidence]) (9/10) 3 3
      · simp only [h2, if_true]; rfl
      · simp only [h2, if_false]
        exact execute_cycles_go_result_isSome attempt (m + 1) m _ rfl
    obtain ⟨r, hr⟩ := Option.isSome_iff_exists.mp hgo
    simp [hr]

/-- C10: `executeCycles` returns an outcome exactly when `maxCycles ≥ 1` (for
any per-cycle collaborator result, in particular for the source's
`_execute_single_cycle` on any instruction); for `maxCycles = 0` the loop
body never runs, the local `result` is never bound, and the function fails
with the unhandled name error (modelled `none`) instead of returning a
zero-cycle outcome. -/
theorem c10_execute_cycles_total_iff_positive (instruction : Instruction) (max_cycles : ℕ) :
    (execute_cycles instruction max_cycles).isSome = decide (1 ≤ max_cycles) ∧
    execute_cycles instruction 0 = none := by
  exact ⟨execute_cycles_with_isSome _ max_cycles, rfl⟩

lemma drop_range_three (k : ℕ) : (List.range (k + 3)).drop k = [k, k + 1, k + 2] := by
  have hsplit : List.range (k + 3) = List.range k ++ [k, k + 1, k + 2] := by
    rw [show k + 3 = (k + 2) + 1 from rfl, List.range_succ,
      show k + 2 = (k + 1) + 1 from rfl, List.range_succ, List.range_succ]
    simp
  rw [hsplit]
  have h := List.drop_left (List.range k) [k, k + 1, k + 2]
  rwa [List.length_range] at h

/-- The oscillating collaborator's confidence history never satisfies the
local-convergence check used inside `execute_cycles` (threshold 0.90, window
3): every window of three consecutive values deviates from its mean by
`4/15 ≥ 1/10`. -/
lemma oscillating_no_local_convergence (m : ℕ) :
    check_local_convergence
      ((List.range m).map fun i => (oscillating_attempt i).confidence) (9/10) 3 3 = false := by
  rcases Nat.lt_or_ge m 3 with hm | hm
  · unfold check_local_convergence
    rw [if_pos (by simpa using hm)]
  · obtain ⟨k, rfl⟩ : ∃ k, m = k + 3 := ⟨m - 3, by omega⟩
    unfold check_local_convergence pySliceLast
    rw [if_neg (by rw [List.length_map, List.length_range]; omega)]
    rw [if_neg (by norm_num : ¬ (3 : ℕ) = 0)]
    have hrecent :
        ((List.range (k + 3)).map fun i => (oscillating_attempt i).confidence).drop
            (((List.range (k + 3)).map fun i => (oscillating_attempt i).confidence).length - 3) =
          [(oscillating_attempt k).confidence, (oscillating_attempt (k + 1)).confidence,
            (oscillating_attempt (k + 2)).confidence] := by
      rw [List.length_map, List.length_range, Nat.add_sub_cancel, ← List.map_drop,
        drop_range_three]
      rfl
    rw [hrecent]
    rw [if_neg (by simp)]
    by_cases hk : k % 2 = 0
    · have h1 : (oscillating_attempt k).confidence = 9/10 := by
        simp [oscillating_attempt, hk]
      have h2 : (oscillating_attempt (k + 1)).confidence = 1/10 := by
        have h : (k + 1) % 2 = 1 := by omega
        simp [oscillating_attempt, h]
      have h3 : (oscillating_attempt (k + 2)).confidence = 9/10 := by
        have h : (k + 2) % 2 = 0 := by omega
        simp [oscillating_attempt, h]
      rw [h1, h2, h3]
      norm_num [pyAbs, List.all_cons]
    · have h1 : (oscillating_attempt k).confidence = 1/10 := by
        simp [oscillating_attempt, hk]
      have h2 : (oscillating_attempt (k + 1)).confidence = 9/10 := by
        have h : (k + 1) % 2 = 0 := by omega
        simp [oscillating_attempt, h]
      have h3 : (oscillating_attempt (k + 2)).confidence = 1/10 := by
        have h : (k + 2) % 2 = 1 := by omega
        simp [oscillating_attempt, h]
      rw [h1, h2, h3]
      norm_num [pyAbs, List.all_cons]

lemma execute_cycles_go_ceiling (attempt : ℕ → CycleResult)
    (Hc : ∀ m, check_local_convergence
        ((List.range m).map fun i => (attempt i).confidence) (9/10) 3 3 = false) :
    ∀ (fuel c : ℕ), c + fuel = 1002 → c ≤ 1001 →
      execute_cycles_go attempt 1002 fuel (loop_state_after attempt c) =
        loop_state_after attempt 1001 := by
  intro fuel
  induction fuel with
  | zero => intro c hcf hle; omega
  | succ f ih =>
    intro c hcf hle
    unfold execute_cycles_go
    by_cases hc1001 : c = 1001
    · subst hc1001
      rw [if_pos (by simp [loop_state_after, MAX_ITERATIONS])]
    · have hiter : ¬ MAX_ITERATIONS ≤ (loop_state_after attempt c).iteration := by
        simp only [loop_state_after, MAX_ITERATIONS]
        omega
      rw [if_neg hiter]
      have hcy : 1002 - (f + 1) = c := by omega
      rw [hcy]
      have hhist : (loop_state_after attempt c).confidence_history ++
          [(attempt c).confidence] =
          (List.range (c + 1)).map fun i => (attempt i).confidence := by
        simp only [loop_state_after, List.range_succ, List.map_append]
        rfl
      simp only [hhist]
      rw [Hc (c + 1)]
      simp only [Bool.false_eq_true, if_false]
      have hst : LoopState.mk c ((List.range (c + 1)).map (fun i => (attempt i).confidence))
          ((loop_state_after attempt c).execution_trace ++
            [⟨"Cycle " ++ toString c, attempt c, (attempt c).success⟩])
          (some (attempt c)) = loop_state_after attempt (c + 1) := by
        simp only [loop_state_after, List.range_succ, List.map_append]
        simp
      rw [hst]
      exact ih (c + 1) (by omega) (by omega)

/-- C1: when the execution-strategy collaborator never reaches local
convergence (so only the cycle bounds can stop the loop) and `maxCycles` is
misconfigured past the hard ceiling (`1002 > MAX_ITERATIONS`),
`execute_cycles` hits the ceiling, silently truncates the loop after cycle
index 1000, and returns a NORMAL outcome carrying the last cycle's success
flag and confidence — not a failed-attempt outcome with minimal confidence,
and not an error: the ceiling is a silent `break`, contrary to the claim. -/
theorem c1_ceiling_truncates_silently (attempt : ℕ → CycleResult)
    (Hc : ∀ m, check_local_convergence
        ((List.range m).map fun i => (attempt i).confidence) (9/10) 3 3 = false) :
    execute_cycles_with attempt 1002 =
      some ⟨(attempt 1000).solution, (attempt 1000).success, (attempt 1000).confidence, 1001,
        (List.range 1001).map (fun i =>
          ⟨"Cycle " ++ toString i, attempt i, (attempt i).success⟩)⟩ := by
  unfold execute_cycles_with
  have h0 : (⟨0, [], [], none⟩ : LoopState) = loop_state_after attempt 0 := rfl
  rw [h0, execute_cycles_go_ceiling attempt Hc 1002 0 (by omega) (by omega)]
  have hres : (loop_state_after attempt 1001).result = some (attempt 1000) := by
    simp [loop_state_after]
  simp only [hres]
  have hlast : ((List.range 1001).map fun i => (attempt i).confidence).getLast? =
      some ((attempt 1000).confidence) := by
    rw [show (1001 : ℕ) = 1000 + 1 from rfl, List.range_succ, List.map_append]
    exact List.getLast?_concat _
  simp [loop_state_after, hlast]

/-- C1 witness: the silent-truncation theorem applied to the oscillating
collaborator: the returned outcome has `success = true` and confidence `0.9`
(the last cycle's values), where the claim demanded a failed-attempt outcome
with minimal confidence. -/
theorem c1_witness :
    execute_cycles_with oscillating_attempt 1002 =
      some ⟨(oscillating_attempt 1000).solution, (oscillating_attempt 1000).success,
        (oscillating_attempt 1000).confidence, 1001,
        (List.range 1001).map (fun i =>
          ⟨"Cycle " ++ toString i, oscillating_attempt i, (oscillating_attempt i).success⟩)⟩ ∧
    (oscillating_attempt 1000).success = true ∧
    (oscillating_attempt 1000).confidence = 9/10 :=
  ⟨c1_ceiling_truncates_silently oscillating_attempt oscillating_no_local_convergence,
    rfl, by norm_num [oscillating_attempt]⟩

end HRM
